import Mathlib

/-!
Verification of the SocketCAN CAN endpoint implementation
(`CANEndpointImpl.cpp` from the `IoT::CAN::SocketCAN` component).

The development models the endpoint as a state machine over an explicit
`EndpointState`.  The kernel (the raw-CAN socket's `setsockopt` facility)
is modelled by an oracle `KernelModel` that either accepts an encoded
filter array (`none`) or rejects it with a host error code (`some errno`).
Exceptions become explicit `Option CANError` / `Except CANError` results;
the state returned alongside an error is the object's state at the point
the exception propagates (C++ objects survive a throwing member function).

All definitions are translated from the source of `CANEndpointImpl.cpp`,
except where a doc comment starting with `Modelled from the spec:` marks a
part of the repository whose source is not available (the `CANFrame`
class).  The build modelled is the full feature build
(`MACCHINA_HAVE_SOCKETCAN` and `CAN_RAW_FD_FRAMES` both defined).
-/

namespace SocketCAN

/-! ## Constants from `linux/can.h` -/

def CAN_EFF_FLAG : Nat := 0x80000000
def CAN_RTR_FLAG : Nat := 0x40000000
def CAN_ERR_FLAG : Nat := 0x20000000
def CAN_EFF_MASK : Nat := 0x1FFFFFFF
def CAN_SFF_MASK : Nat := 0x000007FF
def CAN_INV_FILTER : Nat := 0x20000000

/-! ## Filters -/

/-- A CAN receive filter, as in the `Filter` struct: 32-bit id, 32-bit mask,
and an invert flag. -/
structure Filter where
  id : Nat
  mask : Nat
  invert : Bool
deriving DecidableEq, Repr

/-- `operator == (const Filter&, const Filter&)`: compares `id` and `mask`
only; `invert` is ignored. -/
def filterEq (f1 f2 : Filter) : Bool :=
  f1.id == f2.id && f1.mask == f2.mask

/-- The kernel-side `struct can_filter` as filled in by `applyFilter`. -/
structure CanFilter where
  can_id : Nat
  can_mask : Nat
deriving DecidableEq, Repr

/-- One element of the `fvec` array built by `CANEndpointImpl::applyFilter`:
`fvec[i].can_id = _filter[i].id; fvec[i].can_mask = _filter[i].mask;
if (_filter[i].invert) fvec[i].can_id |= CAN_INV_FILTER;`. -/
def encodeFilter (f : Filter) : CanFilter :=
  { can_id := if f.invert then f.id ||| CAN_INV_FILTER else f.id
    can_mask := f.mask }

/-- The whole `fvec` array built by `applyFilter` from the filter list. -/
def encodeFilters (fs : List Filter) : List CanFilter :=
  fs.map encodeFilter

/-- The address passed to `setsockopt` is `&fvec[0]`: the element of the
encoded array at index 0, if in bounds. -/
def applyFilterBufferArg (fs : List Filter) : Option CanFilter :=
  (encodeFilters fs).get? 0

/-! ## Endpoint state -/

/-- `CANEndpoint::FilterMode` (`CAN_FILTER_MODE_OR` / `CAN_FILTER_MODE_AND`). -/
inductive FilterMode
  | OR
  | AND
deriving DecidableEq, Repr

/-- Poco exception kinds the endpoint raises. -/
inductive CANError
  | ioError (errno : Nat)
  | invalidArgument
  | notSupported
deriving DecidableEq, Repr

/-- The mutable state of a `CANEndpointImpl` object, together with the
kernel-visible effects of its socket calls:
`installed` is the filter array currently installed in the kernel
(`none` before the first successful install), and `installCalls` is the
trace of `CAN_RAW_FILTER` `setsockopt` calls made, each carrying the full
array passed in that one call. -/
structure EndpointState where
  filter : List Filter
  filterMode : FilterMode
  enableEvents : Nat
  readerRunning : Bool
  installed : Option (List CanFilter)
  installCalls : List (List CanFilter)
deriving DecidableEq, Repr

/-- The kernel model: given the encoded filter array passed to
`setsockopt(..., CAN_RAW_FILTER, ...)`, `none` means the call succeeds and
`some e` means it fails with host error code `e`. -/
abbrev KernelModel := List CanFilter → Option Nat

/-- State established by the constructor `CANEndpointImpl::CANEndpointImpl`:
`_filterMode(CAN_FILTER_MODE_OR)`, `_enableEvents(0)`, default-constructed
(empty) `_filter`, no thread started, no filter installed. -/
def initialState : EndpointState :=
  { filter := []
    filterMode := FilterMode.OR
    enableEvents := 0
    readerRunning := false
    installed := none
    installCalls := [] }

/-! ## Filter operations -/

/-- `CANEndpointImpl::applyFilter`: encodes the current filter list into
`fvec` and installs it with a single `setsockopt` call; throws
`Poco::IOException` carrying `errno` when the kernel rejects it. -/
def applyFilter (k : KernelModel) (st : EndpointState) :
    EndpointState × Option CANError :=
  let fvec := encodeFilters st.filter
  let st1 := { st with installCalls := st.installCalls ++ [fvec] }
  match k fvec with
  | none => ({ st1 with installed := some fvec }, none)
  | some e => (st1, some (CANError.ioError e))

/-- `CANEndpointImpl::setFilter`: replaces `_filter` and calls `applyFilter`. -/
def setFilter (k : KernelModel) (fs : List Filter) (st : EndpointState) :
    EndpointState × Option CANError :=
  applyFilter k { st with filter := fs }

/-- `CANEndpointImpl::getFilter`. -/
def getFilter (st : EndpointState) : List Filter :=
  st.filter

/-- `CANEndpointImpl::addFilter`: returns `false` without change when an
equal filter is already present; otherwise appends, applies, returns `true`.
A kernel rejection propagates as the exception, after the list was changed. -/
def addFilter (k : KernelModel) (f : Filter) (st : EndpointState) :
    EndpointState × Except CANError Bool :=
  if st.filter.any (filterEq f) then
    (st, Except.ok false)
  else
    match applyFilter k { st with filter := st.filter ++ [f] } with
    | (st1, none) => (st1, Except.ok true)
    | (st1, some e) => (st1, Except.error e)

/-- `CANEndpointImpl::removeFilter`: erases the first equal filter and
re-applies; returns `false` without change when no equal filter is present. -/
def removeFilter (k : KernelModel) (f : Filter) (st : EndpointState) :
    EndpointState × Except CANError Bool :=
  if st.filter.any (filterEq f) then
    match applyFilter k { st with filter := st.filter.eraseP (filterEq f) } with
    | (st1, none) => (st1, Except.ok true)
    | (st1, some e) => (st1, Except.error e)
  else
    (st, Except.ok false)

/-- `CANEndpointImpl::setFilterMode`: sets the `CAN_RAW_JOIN_FILTERS`
socket option and records the mode.  The filter list is unchanged. -/
def setFilterMode (mode : FilterMode) (st : EndpointState) : EndpointState :=
  { st with filterMode := mode }

/-- `CANEndpointImpl::getFilterMode`. -/
def getFilterMode (st : EndpointState) : FilterMode :=
  st.filterMode

/-! ## Event enable counting -/

/-- `CANEndpointImpl::enableEvents`: on `true`, post-increment
`_enableEvents` and start the reader thread on the 0→1 edge; on `false`,
only when the counter is positive, pre-decrement and join the thread when
the counter reaches 0.  `readerRunning` models whether the reader thread
is live (started and not joined). -/
def enableEvents (enable : Bool) (st : EndpointState) : EndpointState :=
  if enable then
    if st.enableEvents = 0 then
      { st with enableEvents := st.enableEvents + 1, readerRunning := true }
    else
      { st with enableEvents := st.enableEvents + 1 }
  else
    if st.enableEvents > 0 then
      if st.enableEvents - 1 = 0 then
        { st with enableEvents := st.enableEvents - 1, readerRunning := false }
      else
        { st with enableEvents := st.enableEvents - 1 }
    else
      st

/-- `CANEndpointImpl::eventsEnabled`: `_enableEvents > 0`. -/
def eventsEnabled (st : EndpointState) : Bool :=
  st.enableEvents > 0

/-- Runs an interleaving of `enableEvents` calls, `true` for
`enableEvents(true)` and `false` for `enableEvents(false)`. -/
def runEnableSeq (seq : List Bool) (st : EndpointState) : EndpointState :=
  seq.foldl (fun s b => enableEvents b s) st

/-! ## Classic frames: send encoding and receive decoding -/

/-- A classic CAN frame as the endpoint sees it (the `CANFrame` value
type): identifier, the two flags `IDE` and `RTR`, data length code, and
payload bytes.  Per the data model the identifier fits in 29 bits. -/
structure CANFrame where
  id : Nat
  ide : Bool
  rtr : Bool
  dlc : Nat
  payload : List Nat
deriving DecidableEq, Repr

/-- The wire-level `struct can_frame` contents that matter: the 32-bit
`can_id` field (flag bits overlaid in the high bits), the `can_dlc` byte
and the data bytes actually filled in. -/
structure CanFrameBuf where
  can_id : Nat
  can_dlc : Nat
  data : List Nat
deriving DecidableEq, Repr

/-- The packing performed by `CANEndpointImpl::sendFrame`:
`scFrame.can_id = frame.id(); if (IDE) can_id |= CAN_EFF_FLAG;
if (RTR) can_id |= CAN_RTR_FLAG; scFrame.can_dlc = frame.dlc();
memcpy(scFrame.data, frame.payload().data(), frame.dlc());`. -/
def encodeClassic (f : CANFrame) : CanFrameBuf :=
  let cid0 := f.id
  let cid1 := if f.ide then cid0 ||| CAN_EFF_FLAG else cid0
  let cid2 := if f.rtr then cid1 ||| CAN_RTR_FLAG else cid1
  { can_id := cid2
    can_dlc := f.dlc
    data := f.payload.take f.dlc }

/-- The socket-write model: `none` means the write succeeds, `some e`
means it fails with host error code `e`. -/
abbrev SocketWriteModel := CanFrameBuf → Option Nat

/-- `CANEndpointImpl::sendFrame` together with the frame validity check.
Modelled from the spec: the `InvalidArgument` failure when `dlc > 8` or
`len(payload) ≠ dlc` is enforced by the `CANFrame` class, whose source is
not part of this tree; the send path only transmits frames that passed it.
The second component is the list of buffers handed to the socket (empty
when validation rejects the frame, so nothing is transmitted). -/
def sendFrame (w : SocketWriteModel) (f : CANFrame) :
    Option CANError × List CanFrameBuf :=
  if f.dlc > 8 ∨ f.payload.length ≠ f.dlc then
    (some CANError.invalidArgument, [])
  else
    match w (encodeClassic f) with
    | none => (none, [encodeClassic f])
    | some e => (some (CANError.ioError e), [encodeClassic f])

/-- The classic-MTU decode branch of the reader worker
`CANEndpointImpl::run`: `IDE` from `can_id & CAN_EFF_FLAG`, `RTR` from
`can_id & CAN_RTR_FLAG`, identifier `can_id & CAN_EFF_MASK`, then
`CANFrame(id, flags, scFrame.can_dlc, data)` taking `can_dlc` payload
bytes. -/
def decodeClassic (b : CanFrameBuf) : CANFrame :=
  { id := b.can_id &&& CAN_EFF_MASK
    ide := (b.can_id &&& CAN_EFF_FLAG) != 0
    rtr := (b.can_id &&& CAN_RTR_FLAG) != 0
    dlc := b.can_dlc
    payload := b.data.take b.can_dlc }

/-! ## Mutex discipline -/

/-- The public operations of `CANEndpointImpl`. -/
inductive Op
  | device
  | setFilter
  | getFilter
  | addFilter
  | removeFilter
  | setFilterMode
  | getFilterMode
  | sendFrame
  | sendFDFrame
  | enableEvents
  | eventsEnabled
  | enableFDEvents
  | fdEventsEnabled
  | fdFramesSupported
deriving DecidableEq, Repr

/-- Which operations take `_mutex` (contain a `ScopedLock` on it), read
off the bodies in `CANEndpointImpl.cpp` (FD-enabled build). -/
def locksMutex : Op → Bool
  | Op.setFilter => true
  | Op.getFilter => true
  | Op.addFilter => true
  | Op.removeFilter => true
  | Op.enableEvents => true
  | Op.eventsEnabled => true
  | Op.enableFDEvents => true
  | Op.fdEventsEnabled => true
  | _ => false

/-- Which operations read or write the mutex-guarded shared state
(`_filter`, `_filterMode`, `_enableEvents`, `_enableFDEvents`), read off
the bodies in `CANEndpointImpl.cpp`. -/
def touchesSharedState : Op → Bool
  | Op.setFilter => true
  | Op.getFilter => true
  | Op.addFilter => true
  | Op.removeFilter => true
  | Op.setFilterMode => true
  | Op.getFilterMode => true
  | Op.enableEvents => true
  | Op.eventsEnabled => true
  | Op.enableFDEvents => true
  | Op.fdEventsEnabled => true
  | _ => false

/-! ## Theorems -/

/-- Helper: an `enableEvents(true)` call increments the counter. -/
theorem enableEvents_count_true (st : EndpointState) :
    (enableEvents true st).enableEvents = st.enableEvents + 1 := by
  by_cases h0 : st.enableEvents = 0 <;> simp [enableEvents, h0]

/-- Helper: an `enableEvents(false)` call decrements the counter, clamped
at 0 (the decrement is skipped when the counter is already 0). -/
theorem enableEvents_count_false (st : EndpointState) :
    (enableEvents false st).enableEvents = st.enableEvents - 1 := by
  by_cases h0 : st.enableEvents > 0
  · by_cases h1 : st.enableEvents - 1 = 0 <;> simp [enableEvents, h0, h1]
  · have h0' : st.enableEvents = 0 := by omega
    simp [enableEvents, h0, h0']

/-- Helper: each `enableEvents` call preserves the invariant that the
reader thread is live exactly when the counter is positive. -/
theorem enableEvents_running (b : Bool) (st : EndpointState)
    (h : st.readerRunning = true ↔ 0 < st.enableEvents) :
    (enableEvents b st).readerRunning = true
        ↔ 0 < (enableEvents b st).enableEvents := by
  cases b
  · by_cases h0 : st.enableEvents > 0
    · by_cases h1 : st.enableEvents - 1 = 0
      · simp [enableEvents, h0, h1]
      · simp [enableEvents, h0, h1, h]
        omega
    · have hf : st.readerRunning = false := by
        cases hr : st.readerRunning
        · rfl
        · exact absurd (h.mp hr) h0
      simp [enableEvents, h0, hf]
  · by_cases h0 : st.enableEvents = 0
    · simp [enableEvents, h0]
    · simp [enableEvents, h0, h]
      omega

/-- Helper: running an interleaving of enable/disable calls from a state
whose reader flag matches its counter, such that no prefix of the
interleaving disables more often than the starting counter plus its own
enables allow, leaves the counter at `start + #true - #false` and keeps
the reader flag equal to the counter's positivity. -/
theorem runEnableSeq_spec (seq : List Bool) (st : EndpointState)
    (hrun : st.readerRunning = true ↔ 0 < st.enableEvents)
    (hbal : ∀ p ∈ seq.inits, p.count false ≤ st.enableEvents + p.count true) :
    (runEnableSeq seq st).enableEvents
        = st.enableEvents + seq.count true - seq.count false
  ∧ ((runEnableSeq seq st).readerRunning = true
        ↔ 0 < st.enableEvents + seq.count true - seq.count false) := by
  induction seq generalizing st with
  | nil =>
    refine ⟨by simp [runEnableSeq], ?_⟩
    simpa [runEnableSeq] using hrun
  | cons b t ih =>
    have hstep : runEnableSeq (b :: t) st = runEnableSeq t (enableEvents b st) := rfl
    have hrun' := enableEvents_running b st hrun
    cases b with
    | true =>
      have hbal' : ∀ p ∈ t.inits,
          p.count false ≤ (enableEvents true st).enableEvents + p.count true := by
        intro p hp
        have hmem : (true :: p) ∈ (true :: t).inits := by
          simp only [List.inits_cons, List.mem_cons, List.mem_map]
          exact Or.inr ⟨p, hp, rfl⟩
        have hb := hbal (true :: p) hmem
        simp [List.count_cons] at hb
        rw [enableEvents_count_true]
        omega
      have h := ih (enableEvents true st) hrun' hbal'
      rw [hstep]
      refine ⟨h.1.trans ?_, h.2.trans ?_⟩
      · rw [enableEvents_count_true]
        simp [List.count_cons]
        omega
      · rw [enableEvents_count_true]
        simp [List.count_cons]
        omega
    | false =>
      have hpos : 1 ≤ st.enableEvents := by
        have hmem : [false] ∈ (false :: t).inits := by
          simp only [List.inits_cons, List.mem_cons, List.mem_map]
          exact Or.inr ⟨[], by simp, rfl⟩
        have hb := hbal [false] hmem
        simpa using hb
      have hbal' : ∀ p ∈ t.inits,
          p.count false ≤ (enableEvents false st).enableEvents + p.count true := by
        intro p hp
        have hmem : (false :: p) ∈ (false :: t).inits := by
          simp only [List.inits_cons, List.mem_cons, List.mem_map]
          exact Or.inr ⟨p, hp, rfl⟩
        have hb := hbal (false :: p) hmem
        simp [List.count_cons] at hb
        rw [enableEvents_count_false]
        omega
      have h := ih (enableEvents false st) hrun' hbal'
      rw [hstep]
      refine ⟨h.1.trans ?_, h.2.trans ?_⟩
      · rw [enableEvents_count_false]
        simp [List.count_cons]
        omega
      · rw [enableEvents_count_false]
        simp [List.count_cons]
        omega

/-- Claim C1 (amended): for every interleaving of `enableEvents(true)` and
`enableEvents(false)` calls in which no prefix contains more disables than
enables, after `k` enables and `j` disables `eventsEnabled()` returns true
iff `k > j` and the reader worker is running iff `k > j`; moreover a call
to `enableEvents(false)` when the counter is already 0 is a no-op (the
whole state, counter included, is unchanged and no join is attempted). -/
theorem enableEvents_refcount (seq : List Bool)
    (hbal : ∀ p ∈ seq.inits, p.count false ≤ p.count true) :
    eventsEnabled (runEnableSeq seq initialState)
        = decide (seq.count false < seq.count true)
  ∧ (runEnableSeq seq initialState).readerRunning
        = decide (seq.count false < seq.count true)
  ∧ (∀ st : EndpointState, st.enableEvents = 0 → enableEvents false st = st) := by
  have h := runEnableSeq_spec seq initialState (by simp [initialState])
    (by simpa [initialState] using hbal)
  have hcnt : (runEnableSeq seq initialState).enableEvents
      = seq.count true - seq.count false := by
    simpa [initialState] using h.1
  have hrdr : ((runEnableSeq seq initialState).readerRunning = true
      ↔ 0 < seq.count true - seq.count false) := by
    simpa [initialState] using h.2
  refine ⟨?_, ?_, ?_⟩
  · rw [Bool.eq_iff_iff]
    simp only [eventsEnabled, decide_eq_true_eq, hcnt]
    omega
  · rw [Bool.eq_iff_iff]
    simp only [decide_eq_true_eq]
    rw [hrdr]
    omega
  · intro st h0
    simp [enableEvents, h0]

/-- Claim C1 witness: the interleaving `[true, true, false]` is
prefix-balanced, and after it `eventsEnabled()` is `true` (2 enables > 1
disable). -/
theorem enableEvents_refcount_witness :
    (∀ p ∈ [true, true, false].inits, p.count false ≤ p.count true)
  ∧ eventsEnabled (runEnableSeq [true, true, false] initialState)
      = decide ([true, true, false].count false < [true, true, false].count true) :=
  ⟨by decide, (enableEvents_refcount [true, true, false] (by decide)).1⟩

/-- Claim C1 counterexample: the interleaving `[false, true]` has `k = 1`
enables and `j = 1 ≤ k` disables, yet `eventsEnabled()` returns `true` and
the reader is running, contradicting `k > j` — the leading disable is
clamped at 0, so the counts do not cancel. -/
theorem enableEvents_interleaving_cex :
    [false, true].count true = 1
  ∧ [false, true].count false = 1
  ∧ eventsEnabled (runEnableSeq [false, true] initialState) = true
  ∧ (runEnableSeq [false, true] initialState).readerRunning = true
  ∧ ¬ [false, true].count false < [false, true].count true := by
  decide

/-- Claim C2: `addFilter` returns false and leaves the state unchanged
when an equal filter is present; `removeFilter` returns false and leaves
the state unchanged when none is; and filter equality compares only
`(id, mask)`, ignoring `invert`. -/
theorem filter_duplicate_handling (k : KernelModel) (f : Filter) (st : EndpointState) :
    (st.filter.any (filterEq f) = true → addFilter k f st = (st, Except.ok false))
  ∧ (st.filter.any (filterEq f) = false → removeFilter k f st = (st, Except.ok false))
  ∧ (∀ g : Filter, filterEq f g = true ↔ f.id = g.id ∧ f.mask = g.mask) := by
  refine ⟨fun h => ?_, fun h => ?_, fun g => ?_⟩
  · simp [addFilter, h]
  · simp [removeFilter, h]
  · simp [filterEq]

/-- Claim C2 witness: adding `(0x100, 0x7FF, invert := true)` to a list
already holding `(0x100, 0x7FF, invert := false)` is rejected (equality
ignores `invert`), and removing an absent `(0x200, 0x7FF)` is rejected;
both leave the state unchanged. -/
theorem filter_duplicate_handling_witness :
    addFilter (fun _ => none) ⟨0x100, 0x7FF, true⟩
        { initialState with filter := [⟨0x100, 0x7FF, false⟩] }
      = ({ initialState with filter := [⟨0x100, 0x7FF, false⟩] }, Except.ok false)
  ∧ removeFilter (fun _ => none) ⟨0x200, 0x7FF, false⟩
        { initialState with filter := [⟨0x100, 0x7FF, false⟩] }
      = ({ initialState with filter := [⟨0x100, 0x7FF, false⟩] }, Except.ok false) :=
  ⟨(filter_duplicate_handling (fun _ => none) ⟨0x100, 0x7FF, true⟩
      { initialState with filter := [⟨0x100, 0x7FF, false⟩] }).1 (by decide),
   (filter_duplicate_handling (fun _ => none) ⟨0x200, 0x7FF, false⟩
      { initialState with filter := [⟨0x100, 0x7FF, false⟩] }).2.1 (by decide)⟩

/-- Claim C8: the functional install path accepts an empty filter list —
`setFilter([])` completes without error and `removeFilter` of the last
filter empties the list and returns true — but the buffer argument the
source passes to `setsockopt`, `&fvec[0]`, indexes element 0 of the
encoded array, which is out of bounds (`none`) when that array has zero
elements. -/
theorem applyFilter_empty_array_access :
    applyFilterBufferArg [] = none
  ∧ (setFilter (fun _ => none) [] initialState).2 = none
  ∧ (removeFilter (fun _ => none) ⟨0x100, 0x7FF, false⟩
        { initialState with filter := [⟨0x100, 0x7FF, false⟩] }).1.filter = []
  ∧ (removeFilter (fun _ => none) ⟨0x100, 0x7FF, false⟩
        { initialState with filter := [⟨0x100, 0x7FF, false⟩] }).2 = Except.ok true :=
  ⟨rfl, rfl, rfl, rfl⟩

/-- Claim C9 counterexample: `setFilterMode` and `getFilterMode` access
the shared `_filterMode` field but, unlike every other shared-state
operation, do not acquire `_mutex`. -/
theorem setFilterMode_lock_cex :
    touchesSharedState Op.setFilterMode = true
  ∧ locksMutex Op.setFilterMode = false
  ∧ touchesSharedState Op.getFilterMode = true
  ∧ locksMutex Op.getFilterMode = false := by
  decide

/-- Claim C9 (amended): every operation that reads or writes the shared
endpoint state acquires the per-endpoint mutex, except `setFilterMode` and
`getFilterMode`, which access `_filterMode` without locking. -/
theorem mutex_discipline (op : Op) (h : touchesSharedState op = true)
    (h1 : op ≠ Op.setFilterMode) (h2 : op ≠ Op.getFilterMode) :
    locksMutex op = true := by
  cases op <;> simp_all [touchesSharedState, locksMutex]

/-- Claim C9 witness: `setFilter` touches shared state and locks the mutex. -/
theorem mutex_discipline_witness : locksMutex Op.setFilter = true :=
  mutex_discipline Op.setFilter (by decide) (by decide) (by decide)

/-- Claim C10: a newly constructed endpoint has filter mode OR, an empty
filter list, a zero classic enable counter (`eventsEnabled()` false), and
no reader worker running. -/
theorem initial_state_defaults :
    getFilterMode initialState = FilterMode.OR
  ∧ getFilter initialState = []
  ∧ eventsEnabled initialState = false
  ∧ initialState.readerRunning = false := by
  decide

/-- Helper: masking with the 29-bit extended mask is the identity on
identifiers within the data-model range. -/
theorem and_eff_mask_of_lt {x : Nat} (h : x < 2 ^ 29) : x &&& CAN_EFF_MASK = x := by
  have hm : CAN_EFF_MASK = 2 ^ 29 - 1 := by norm_num [CAN_EFF_MASK]
  rw [hm, Nat.and_pow_two_sub_one_eq_mod, Nat.mod_eq_of_lt h]

/-- Helper: `&&&` distributes over `|||` on `Nat`. -/
theorem lor_and_distrib (x c m : Nat) : (x ||| c) &&& m = (x &&& m) ||| (c &&& m) := by
  apply Nat.eq_of_testBit_eq
  intro i
  simp [Bool.and_or_distrib_right]

/-- Helper: an identifier within 29 bits has no overlap with a single
flag bit at position 29 or above. -/
theorem and_high_flag_eq_zero {x : Nat} (h : x < 2 ^ 29) {n : Nat} (hn : 29 ≤ n) :
    x &&& 2 ^ n = 0 := by
  apply Nat.eq_of_testBit_eq
  intro i
  simp only [Nat.testBit_and, Nat.zero_testBit, Nat.testBit_two_pow]
  rcases eq_or_ne n i with rfl | hne
  · simp [Nat.testBit_lt_two_pow
      (Nat.lt_of_lt_of_le h (Nat.pow_le_pow_right (by norm_num) hn))]
  · simp [hne]

/-- Claim C3: `setFilter`, successful `addFilter` and successful
`removeFilter` each make exactly one kernel install call carrying the
complete new filter list; when the kernel accepts, the installed set is
replaced wholesale by that list; each element is encoded as
`can_id = id ||| (invert ? CAN_INV_FILTER : 0)`, `can_mask = mask`. -/
theorem filter_install_protocol (k : KernelModel) (fs : List Filter)
    (f : Filter) (st : EndpointState) :
    ((setFilter k fs st).1.installCalls = st.installCalls ++ [encodeFilters fs]
      ∧ (k (encodeFilters fs) = none →
          (setFilter k fs st).1.installed = some (encodeFilters fs)))
  ∧ (st.filter.any (filterEq f) = false →
      (addFilter k f st).1.installCalls
          = st.installCalls ++ [encodeFilters (st.filter ++ [f])]
      ∧ (k (encodeFilters (st.filter ++ [f])) = none →
          (addFilter k f st).1.installed = some (encodeFilters (st.filter ++ [f]))))
  ∧ (st.filter.any (filterEq f) = true →
      (removeFilter k f st).1.installCalls
          = st.installCalls ++ [encodeFilters (st.filter.eraseP (filterEq f))]
      ∧ (k (encodeFilters (st.filter.eraseP (filterEq f))) = none →
          (removeFilter k f st).1.installed
            = some (encodeFilters (st.filter.eraseP (filterEq f)))))
  ∧ (∀ g : Filter,
      (encodeFilter g).can_id = g.id ||| (if g.invert then CAN_INV_FILTER else 0)
      ∧ (encodeFilter g).can_mask = g.mask) := by
  refine ⟨⟨?_, fun hk => ?_⟩, fun hnf => ⟨?_, fun hk => ?_⟩,
    fun hf => ⟨?_, fun hk => ?_⟩, fun g => ⟨?_, rfl⟩⟩
  · cases hk : k (encodeFilters fs) <;> simp [setFilter, applyFilter, hk]
  · simp [setFilter, applyFilter, hk]
  · cases hk : k (encodeFilters (st.filter ++ [f])) <;>
      simp [addFilter, applyFilter, hnf, hk]
  · simp [addFilter, applyFilter, hnf, hk]
  · cases hk : k (encodeFilters (st.filter.eraseP (filterEq f))) <;>
      simp [removeFilter, applyFilter, hf, hk]
  · simp [removeFilter, applyFilter, hf, hk]
  · cases hg : g.invert <;> simp [encodeFilter, hg]

/-- Claim C3 witness: installing `[(1, 7, invert := true)]` through
`setFilter` on a fresh endpoint with an accepting kernel installs exactly
the encoded list. -/
theorem filter_install_protocol_witness :
    (setFilter (fun _ => none) [⟨1, 7, true⟩] initialState).1.installed
        = some (encodeFilters [⟨1, 7, true⟩]) :=
  ((filter_install_protocol (fun _ => none) [⟨1, 7, true⟩] ⟨1, 7, true⟩
      initialState).1).2 rfl

/-- Claim C4: when the kernel rejects the filter array, `setFilter`,
`addFilter` and `removeFilter` fail with `IOError` carrying the host
error code, the in-memory filter list has already been replaced by the
new list, and the kernel-installed set is left at its previous value —
so the in-memory list diverges from the kernel state. -/
theorem filter_install_failure (k : KernelModel) (e : Nat) (fs : List Filter)
    (f : Filter) (st : EndpointState) :
    (k (encodeFilters fs) = some e →
        (setFilter k fs st).2 = some (CANError.ioError e)
      ∧ (setFilter k fs st).1.filter = fs
      ∧ (setFilter k fs st).1.installed = st.installed)
  ∧ (st.filter.any (filterEq f) = false →
      k (encodeFilters (st.filter ++ [f])) = some e →
        (addFilter k f st).2 = Except.error (CANError.ioError e)
      ∧ (addFilter k f st).1.filter = st.filter ++ [f]
      ∧ (addFilter k f st).1.installed = st.installed)
  ∧ (st.filter.any (filterEq f) = true →
      k (encodeFilters (st.filter.eraseP (filterEq f))) = some e →
        (removeFilter k f st).2 = Except.error (CANError.ioError e)
      ∧ (removeFilter k f st).1.filter = st.filter.eraseP (filterEq f)
      ∧ (removeFilter k f st).1.installed = st.installed) := by
  refine ⟨fun hk => ?_, fun hnf hk => ?_, fun hf hk => ?_⟩
  · simp [setFilter, applyFilter, hk]
  · simp [addFilter, applyFilter, hnf, hk]
  · simp [removeFilter, applyFilter, hf, hk]

/-- Claim C4 witness: a kernel rejecting with `errno = 22` makes
`setFilter` fail with `IOError 22` while the in-memory list holds the new
filter and nothing is installed. -/
theorem filter_install_failure_witness :
    (setFilter (fun _ => some 22) [⟨1, 7, false⟩] initialState).2
        = some (CANError.ioError 22)
  ∧ (setFilter (fun _ => some 22) [⟨1, 7, false⟩] initialState).1.filter
        = [⟨1, 7, false⟩]
  ∧ (setFilter (fun _ => some 22) [⟨1, 7, false⟩] initialState).1.installed
        = none := by
  have h := (filter_install_failure (fun _ => some 22) 22 [⟨1, 7, false⟩]
    ⟨1, 7, false⟩ initialState).1 rfl
  exact ⟨h.1, h.2.1, by simpa [initialState] using h.2.2⟩

/-- Claim C5 (validation modelled from the spec, see `sendFrame`): a
classic frame whose `dlc` exceeds 8 or whose payload length differs from
its `dlc` makes `sendFrame` fail with `InvalidArgument` and nothing is
written to the socket; a valid frame whose socket write fails makes it
fail with `IOError` carrying the host error code. -/
theorem sendFrame_error_cases (w : SocketWriteModel) (f : CANFrame) (e : Nat) :
    (f.dlc > 8 ∨ f.payload.length ≠ f.dlc →
        sendFrame w f = (some CANError.invalidArgument, []))
  ∧ (¬ (f.dlc > 8 ∨ f.payload.length ≠ f.dlc) →
      w (encodeClassic f) = some e →
        (sendFrame w f).1 = some (CANError.ioError e)
      ∧ (sendFrame w f).2 = [encodeClassic f]) := by
  refine ⟨fun h => ?_, fun h hw => ?_⟩
  · simp [sendFrame, h]
  · simp [sendFrame, h, hw]

/-- Claim C5 witness: a frame with `dlc = 9` is rejected with
`InvalidArgument` and nothing reaches the socket; a valid 2-byte frame on
a socket failing with error 5 surfaces `IOError 5`. -/
theorem sendFrame_error_cases_witness :
    sendFrame (fun _ => some 5) ⟨0x100, false, false, 9, List.replicate 9 0⟩
        = (some CANError.invalidArgument, [])
  ∧ (sendFrame (fun _ => some 5) ⟨0x100, false, false, 2, [0xAA, 0xBB]⟩).1
        = some (CANError.ioError 5) :=
  ⟨(sendFrame_error_cases (fun _ => some 5)
      ⟨0x100, false, false, 9, List.replicate 9 0⟩ 5).1 (by decide),
   ((sendFrame_error_cases (fun _ => some 5)
      ⟨0x100, false, false, 2, [0xAA, 0xBB]⟩ 5).2 (by decide) rfl).1⟩

/-- Claim C6: for every classic frame within the data model (29-bit id,
`dlc ≤ 8`, payload length equal to `dlc`), `sendFrame` writes exactly one
classic frame buffer whose identifier field is
`(id &&& CAN_EFF_MASK) ||| (IDE ? CAN_EFF_FLAG : 0) ||| (RTR ? CAN_RTR_FLAG : 0)`,
whose dlc field is the frame's `dlc`, and whose data bytes are the
frame's payload. -/
theorem sendFrame_packing (w : SocketWriteModel) (f : CANFrame)
    (hid : f.id < 2 ^ 29) (hdlc : f.dlc ≤ 8) (hlen : f.payload.length = f.dlc) :
    (sendFrame w f).2 = [encodeClassic f]
  ∧ (encodeClassic f).can_id
      = ((f.id &&& CAN_EFF_MASK) ||| (if f.ide then CAN_EFF_FLAG else 0))
          ||| (if f.rtr then CAN_RTR_FLAG else 0)
  ∧ (encodeClassic f).can_dlc = f.dlc
  ∧ (encodeClassic f).data = f.payload := by
  refine ⟨?_, ?_, rfl, ?_⟩
  · have h : ¬ (f.dlc > 8 ∨ f.payload.length ≠ f.dlc) := by omega
    cases hw : w (encodeClassic f) <;> simp [sendFrame, h, hw]
  · rw [and_eff_mask_of_lt hid]
    cases hi : f.ide <;> cases hr : f.rtr <;> simp [encodeClassic, hi, hr]
  · simp only [encodeClassic]
    rw [← hlen, List.take_length]

/-- Claim C6 witness: sending the frame `id = 0x7FF`, IDE and RTR unset,
`dlc = 8`, payload `00 01 02 03 04 05 06 07` yields one buffer whose
identifier field is exactly `0x7FF` (all bits above the low 11 clear),
dlc field 8, and matching payload bytes. -/
theorem sendFrame_packing_witness :
    (sendFrame (fun _ => none) ⟨0x7FF, false, false, 8, [0, 1, 2, 3, 4, 5, 6, 7]⟩).2
        = [encodeClassic ⟨0x7FF, false, false, 8, [0, 1, 2, 3, 4, 5, 6, 7]⟩]
  ∧ (encodeClassic ⟨0x7FF, false, false, 8, [0, 1, 2, 3, 4, 5, 6, 7]⟩).can_id = 0x7FF
  ∧ (encodeClassic ⟨0x7FF, false, false, 8, [0, 1, 2, 3, 4, 5, 6, 7]⟩).can_id
        &&& 0xFFFFF800 = 0
  ∧ (encodeClassic ⟨0x7FF, false, false, 8, [0, 1, 2, 3, 4, 5, 6, 7]⟩).can_dlc = 8
  ∧ (encodeClassic ⟨0x7FF, false, false, 8, [0, 1, 2, 3, 4, 5, 6, 7]⟩).data
        = [0, 1, 2, 3, 4, 5, 6, 7] := by
  have h := sendFrame_packing (fun _ => none)
    ⟨0x7FF, false, false, 8, [0, 1, 2, 3, 4, 5, 6, 7]⟩
    (by decide) (by decide) (by decide)
  exact ⟨h.1, by decide, by decide, h.2.2.1, h.2.2.2⟩

/-- Claim C7: for every classic frame within the data model, decoding the
send encoding with the reader worker's classic-MTU branch recovers the
identifier, the dlc and the payload (and in fact the IDE and RTR flags as
well). -/
theorem classic_roundtrip (f : CANFrame)
    (hid : f.id < 2 ^ 29) (hdlc : f.dlc ≤ 8) (hlen : f.payload.length = f.dlc) :
    (decodeClassic (encodeClassic f)).id = f.id
  ∧ (decodeClassic (encodeClassic f)).dlc = f.dlc
  ∧ (decodeClassic (encodeClassic f)).payload = f.payload := by
  have heff : CAN_EFF_FLAG = 2 ^ 31 := by norm_num [CAN_EFF_FLAG]
  have hrtr : CAN_RTR_FLAG = 2 ^ 30 := by norm_num [CAN_RTR_FLAG]
  refine ⟨?_, rfl, ?_⟩
  · have hmask : f.id &&& 0x1FFFFFFF = f.id := and_eff_mask_of_lt hid
    have h1 : (0x40000000 : Nat) &&& 0x1FFFFFFF = 0 := by decide
    have h2 : (0x80000000 : Nat) &&& 0x1FFFFFFF = 0 := by decide
    cases hi : f.ide <;> cases hr : f.rtr <;>
      simp [decodeClassic, encodeClassic, hi, hr, lor_and_distrib,
        CAN_EFF_MASK, CAN_EFF_FLAG, CAN_RTR_FLAG, hmask, h1, h2]
  · simp only [decodeClassic, encodeClassic]
    rw [← hlen, List.take_length, List.take_length]

/-- Claim C7 witness: the extended-id frame `id = 0x1ABCDEF`, IDE set,
`dlc = 2`, payload `AA BB` round-trips through encode and decode. -/
theorem classic_roundtrip_witness :
    (decodeClassic (encodeClassic ⟨0x1ABCDEF, true, false, 2, [0xAA, 0xBB]⟩)).id
        = 0x1ABCDEF
  ∧ (decodeClassic (encodeClassic ⟨0x1ABCDEF, true, false, 2, [0xAA, 0xBB]⟩)).dlc = 2
  ∧ (decodeClassic (encodeClassic ⟨0x1ABCDEF, true, false, 2, [0xAA, 0xBB]⟩)).payload
        = [0xAA, 0xBB] :=
  classic_roundtrip ⟨0x1ABCDEF, true, false, 2, [0xAA, 0xBB]⟩
    (by decide) (by decide) (by decide)

end SocketCAN
